import Mathlib

/-!
Verification of the DearMEP call lifecycle state machine.

Shallow embedding of the call-handling core of the repository:

* `src/server/dearmep/phone/elks/ongoing_calls.py` — the Call Registry
  operations (`get_call`, `add_call`, `connect_call`, `end_call`,
  `remove_call`, `destination_is_in_call`, `get_mep_number`);
* `src/server/dearmep/phone/elks/elks.py` — the webhook handlers
  (`start_elks_call`, `instant_main_menu`, `instant_next`,
  `instant_connect_to_mep`, `get_alternative_destination`,
  `instant_connect`, `hangup`);
* `src/server/dearmep/phone/utils.py` — `choose_from_number`;
* `src/server/dearmep/database/models.py` — the selection-log event kinds,
  `Contact`, `Destination`, `DestinationGroup`;
* the `calls` table schema from
  `src/server/migrations/versions/2023_10_18_1459-...py`
  (columns and the UNIQUE(provider, provider_call_id) constraint).

Conventions of the embedding: timestamps are natural numbers (seconds);
the database session plumbing (the `session` decorator, commits) is elided,
the durable state being threaded explicitly as a `Registry` value; Python
exceptions are modelled by `Except PyError`; randomness
(`query.get_random_destination`, `random.choice`) is modelled by oracle
arguments supplying the draw.  Statements that in Python mutate rows and
commit before a later statement can raise are modelled by handlers that
return the state holding exactly the mutations performed up to the point
of the error.
-/

set_option maxHeartbeats 1000000

namespace DearMEP

/-- Event kinds of the selection log
(`DestinationSelectionLogEvent` in `database/models.py`). -/
inductive SelEvent where
  | WEB_SUGGESTED
  | IVR_SUGGESTED
  | CALLING_USER
  | IN_MENU
  | CALLING_DESTINATION
  | DESTINATION_CONNECTED
  | FINISHED_SHORT_CALL
  | FINISHED_CALL
  | CALL_ABORTED
  | CALLING_USER_FAILED
  | CALLING_DESTINATION_FAILED
  deriving DecidableEq

/-- Python exceptions that the embedded code can raise. -/
inductive PyError where
  | callError            -- ongoing_calls raising for a missing call
  | typeError            -- calling a function with wrong arguments
  | indexError           -- indexing into an empty list
  | attributeError       -- attribute access on a missing object
  | notFound             -- query.NotFound (missing Destination row)
  | integrityError       -- violating the UNIQUE(provider, provider_call_id) constraint
  | noNumbersAvailable   -- the error name the spec uses for an empty number pool
  deriving DecidableEq

/-- One contact datum of a Destination (`Contact` in `database/models.py`);
only the fields the call lifecycle reads are carried. -/
structure Contact where
  type : String
  contact : String
  deriving DecidableEq

/-- A destination group (`DestinationGroup` in `database/models.py`);
only the fields the call lifecycle reads are carried. -/
structure DestGroup where
  id : String
  type : String
  deriving DecidableEq

/-- A Destination (`Destination` in `database/models.py`); only the fields
the call lifecycle reads are carried. -/
structure Destination where
  id : String
  contacts : List Contact
  groups : List DestGroup
  deriving DecidableEq

/-- One row of the `calls` table, per the initial alembic migration
(columns id, provider, provider_call_id, started_at, connected_at,
user_language, user_id, destination_id) plus the `ended_at` column the
registry code reads; the surrogate primary key and `started_at` are not
read by the embedded code and are elided. -/
structure Call where
  provider : String
  provider_call_id : String
  user_language : String
  user_id : String
  destination_id : String
  connected_at : Option Nat
  ended_at : Option Nat
  deriving DecidableEq

/-- One row of the `dest_select_log` table
(`DestinationSelectionLogBase` in `database/models.py`); the
auto-generated id and timestamp are elided. -/
structure LogEntry where
  destination_id : String
  event : SelEvent
  user_id : Option String
  call_id : Option String
  deriving DecidableEq

/-- The durable state the call lifecycle touches: the read-only Destination
pool, the `calls` table and the append-only selection log. -/
structure Registry where
  dests : List Destination
  calls : List Call
  log : List LogEntry
  deriving DecidableEq

/-- Telephony configuration values read by the handlers
(`config.telephony` in `elks.py` `mount_router`). -/
structure Cfg where
  provider : String
  phone_call_threshhold : Int
  test_call : Option String

/-! ## Call Registry operations (`phone/elks/ongoing_calls.py`) -/

/-- The key of a `calls` row that is unique by the table constraint
UNIQUE(provider, provider_call_id). -/
def sameKey (a b : Call) : Bool :=
  a.provider == b.provider && a.provider_call_id == b.provider_call_id

/-- `get_call(callid, provider, session)`: the registry lookup by provider
call id.  The snapshot of `ongoing_calls.py` under `src/` takes no
`provider` argument and returns `None` on a miss; the interface actually
used by `elks.py` and asserted by `tests/test_ongoing_calls.py` filters on
the provider as well and raises `CallError` on a miss — either way the
caller observes an error when it dereferences the result, modelled here as
`PyError.callError`. -/
def get_call (callid provider : String) (calls : List Call) : Except PyError Call :=
  match calls.find? (fun c => c.provider_call_id == callid && c.provider == provider) with
  | some c => .ok c
  | none => .error .callError

/-- `add_call(...)`: inserts a fresh row with `connected_at` and `ended_at`
unset.  The `calls` table has UNIQUE(provider, provider_call_id), so
inserting a duplicate key raises (IntegrityError). -/
def add_call (provider provider_call_id user_language user_id destination_id : String)
    (calls : List Call) : Except PyError (List Call) :=
  if calls.any (fun c => c.provider == provider &&
      c.provider_call_id == provider_call_id) then
    .error .integrityError
  else
    .ok (calls ++ [⟨provider, provider_call_id, user_language, user_id,
      destination_id, none, none⟩])

/-- `connect_call(call, session)`: sets `connected_at = datetime.now()` on
the given call row. -/
def connect_call (call : Call) (now : Nat) (calls : List Call) : List Call :=
  calls.map (fun x => if sameKey x call then { x with connected_at := some now } else x)

/-- `end_call(call, session)`: sets `ended_at = datetime.now()` on the
given call row. -/
def end_call (call : Call) (now : Nat) (calls : List Call) : List Call :=
  calls.map (fun x => if sameKey x call then { x with ended_at := some now } else x)

/-- `remove_call(call, session)`: deletes the call row. -/
def remove_call (call : Call) (calls : List Call) : List Call :=
  calls.filter (fun x => !sameKey x call)

/-- The condition of the `destination_is_in_call` query on a single row:
same destination, `connected_at` set, `ended_at` unset. -/
def is_active (d : String) (c : Call) : Bool :=
  c.destination_id == d && c.connected_at.isSome && c.ended_at.isNone

/-- `destination_is_in_call(destination_id, session)`: true iff a call row
for that destination has `connected_at` set and `ended_at` unset. -/
def destination_is_in_call (d : String) (calls : List Call) : Bool :=
  calls.any (is_active d)

/-- `get_mep_number(call)`: the first contact of type `phone` of the
destination of the call, or the empty string if there is none. -/
def get_mep_number (dest : Destination) : String :=
  match dest.contacts.filter (fun x => x.type == "phone") with
  | [] => ""
  | x :: _ => x.contact

/-- Lookup of a Destination row by id (`query.get_destination_by_id`,
and the eager-loaded `call.destination` relationship). -/
def getDest (dests : List Destination) (id : String) : Option Destination :=
  dests.find? (fun d => d.id == id)

/-- The selection-log row that `query.log_destination_selection` inserts
when called with the destination, user id and call id of a given call.
Modelled from the spec: `database/query.py` is not under `src/`; spec
section 4.5 describes the operation as a pure append-only insert. -/
def selEntry (call : Call) (e : SelEvent) : LogEntry :=
  ⟨call.destination_id, e, some call.user_id, some call.provider_call_id⟩

/-! ## Webhook handlers (`phone/elks/elks.py`) -/

/-- The call state in the synchronous 46elks response
(`InitialElkResponseState` in `phone/elks/models.py`). -/
inductive ElkState where
  | ongoing
  | success
  | busy
  | failed
  deriving DecidableEq

/-- The declarative next-action payload a handler returns to the provider,
reduced to the shape the claims talk about (which audio flow is played,
and the number handed to a `connect` action). -/
inductive ElkAction where
  | ivrMainMenu                 -- main_menu audio, next = instant_next
  | playConnecting              -- connecting audio, next = instant_connect
  | ivrSuggestAlternative       -- mep_unavailable audio, next = instant_alternative
  | ivrArguments                -- arguments audio, next = arguments
  | connect (number : String)   -- bridge to this number, next = thanks_for_calling
  | noContent                   -- the handler returned None
  deriving DecidableEq

/-- `start_elks_call(...)`: the part after the outbound POST to the
provider returned (the response state is the argument).  On a `failed`
state the function only calls `logger.warn` and returns; otherwise it
registers the call (provider literal `"46elks"`) and logs `CALLING_USER`
for the destination fetched by `query.get_destination_by_id`. -/
def start_elks_call (respState : ElkState)
    (callid user_language user_id destination_id : String)
    (st : Registry) : Registry × Except PyError ElkState :=
  if respState = ElkState.failed then
    (st, .ok respState)
  else
    match add_call "46elks" callid user_language user_id destination_id st.calls with
    | .error e => (st, .error e)
    | .ok calls1 =>
      match getDest st.dests destination_id with
      | none => ({ st with calls := calls1 }, .error .notFound)
      | some dest =>
        ({ st with
            calls := calls1
            log := st.log ++ [⟨dest.id, SelEvent.CALLING_USER, some user_id, some callid⟩] },
         .ok respState)

/-- `instant_main_menu` route: resolves the call and logs `IN_MENU`. -/
def instant_main_menu (cfg : Cfg) (callid : String) (st : Registry) :
    Registry × Except PyError ElkAction :=
  match get_call callid cfg.provider st.calls with
  | .error e => (st, .error e)
  | .ok call =>
    ({ st with log := st.log ++ [selEntry call SelEvent.IN_MENU] }, .ok .ivrMainMenu)

/-- `check_no_input(result, why)`: voice mail or IVR timeout. -/
def check_no_input (result why : String) : Bool :=
  result == "failed" && why == "noinput"

/-- `get_alternative_destination(session)`: draws
`query.get_random_destination` (modelled from the spec — `database/query.py`
is not under `src/` — by the oracle argument `pick` supplying the drawn
Destination) and, if the draw is already in an active call, performs the
retry `return get_alternative_destination()`; that recursive call omits
the required positional `session` argument and therefore raises a
TypeError at runtime, before any further draw. -/
def get_alternative_destination (pick : Destination) (calls : List Call) :
    Except PyError Destination :=
  if destination_is_in_call pick.id calls then .error .typeError
  else .ok pick

/-- `instant_connect_to_mep(call, callid, session)`: the digit-1 bridge
attempt.  If the destination of the call is free, logs
`CALLING_DESTINATION` and returns the connecting playback; otherwise it
draws an alternative destination, reads its first `parl_group` group
(an IndexError if there is none), removes the old call row, re-creates it
against the new destination id with the same provider call id, re-fetches
it, and logs `IVR_SUGGESTED` for the new destination. -/
def instant_connect_to_mep (cfg : Cfg) (call : Call) (callid : String)
    (pick : Destination) (st : Registry) : Registry × Except PyError ElkAction :=
  if destination_is_in_call call.destination_id st.calls then
    match get_alternative_destination pick st.calls with
    | .error e => (st, .error e)
    | .ok newDest =>
      match newDest.groups.filter (fun g => g.type == "parl_group") with
      | [] => (st, .error .indexError)
      | _ :: _ =>
        match add_call cfg.provider callid call.user_language call.user_id
            newDest.id (remove_call call st.calls) with
        | .error e => ({ st with calls := remove_call call st.calls }, .error e)
        | .ok calls2 =>
          match get_call callid cfg.provider calls2 with
          | .error e => ({ st with calls := calls2 }, .error e)
          | .ok call2 =>
            ({ st with
                calls := calls2
                log := st.log ++ [⟨newDest.id, SelEvent.IVR_SUGGESTED,
                  some call2.user_id, some call2.provider_call_id⟩] },
             .ok .ivrSuggestAlternative)
  else
    ({ st with log := st.log ++ [selEntry call SelEvent.CALLING_DESTINATION] },
     .ok .playConnecting)

/-- `instant_next` route (digit collection after the main menu): digit 1
attempts the bridge, digit 5 plays arguments, anything else returns
nothing; a no-input result returns before the call is even resolved. -/
def instant_next (cfg : Cfg) (callid result why : String) (pick : Destination)
    (st : Registry) : Registry × Except PyError ElkAction :=
  if check_no_input result why then
    (st, .ok .noContent)
  else
    match get_call callid cfg.provider st.calls with
    | .error e => (st, .error e)
    | .ok call =>
      if result == "1" then
        instant_connect_to_mep cfg call callid pick st
      else if result == "5" then
        (st, .ok .ivrArguments)
      else
        (st, .ok .noContent)

/-- `instant_connect` route (the actual bridge): resolves the call, reads
the phone contact of its destination, marks the call connected, logs
`DESTINATION_CONNECTED` and returns the connect action (the connect number
is overridden by `telephony.test_call` when that is configured). -/
def instant_connect (cfg : Cfg) (callid : String) (now : Nat) (st : Registry) :
    Registry × Except PyError ElkAction :=
  match get_call callid cfg.provider st.calls with
  | .error e => (st, .error e)
  | .ok call =>
    match getDest st.dests call.destination_id with
    | none => (st, .error .attributeError)
    | some dest =>
      let number := match cfg.test_call with
        | some t => t
        | none => get_mep_number dest
      ({ st with
          calls := connect_call call now st.calls
          log := st.log ++ [selEntry call SelEvent.DESTINATION_CONNECTED] },
       .ok (.connect number))

/-- One mutation of the durable state performed by the `hangup` route. -/
inductive Mut where
  | logApp (e : LogEntry)
  | removeRec (call : Call)
  deriving DecidableEq

/-- Applies one `hangup` mutation to the state. -/
def applyMut (st : Registry) : Mut → Registry
  | .logApp e => { st with log := st.log ++ [e] }
  | .removeRec c => { st with calls := remove_call c st.calls }

/-- The sequence of durable-state mutations the `hangup` route performs on
a call it found, in statement order: the terminal classification log entry
(`FINISHED_SHORT_CALL` when the connected duration is at most
`phone_call_threshhold`, else `FINISHED_CALL`; `CALL_ABORTED` when the
call was never connected), then the removal of the call row, then — only
when the webhook carried no `start` field — a `CALLING_USER_FAILED`
entry. -/
def hangup_muts (cfg : Cfg) (call : Call) (tstart : Option Nat) (now : Nat) :
    List Mut :=
  (match call.connected_at with
   | some t =>
     if (now : Int) - (t : Int) ≤ cfg.phone_call_threshhold then
       [Mut.logApp (selEntry call SelEvent.FINISHED_SHORT_CALL)]
     else
       [Mut.logApp (selEntry call SelEvent.FINISHED_CALL)]
   | none => [Mut.logApp (selEntry call SelEvent.CALL_ABORTED)])
  ++ [Mut.removeRec call]
  ++ (match tstart with
      | none => [Mut.logApp (selEntry call SelEvent.CALLING_USER_FAILED)]
      | some _ => [])

/-- `hangup` route: resolves the call — there is no guard for a missing
call, so the registry miss propagates as an error — and otherwise performs
the `hangup_muts` mutations in order. -/
def hangup (cfg : Cfg) (callid : String) (tstart : Option Nat) (now : Nat)
    (st : Registry) : Registry × Except PyError ElkAction :=
  match get_call callid cfg.provider st.calls with
  | .error e => (st, .error e)
  | .ok call => ((hangup_muts cfg call tstart now).foldl applyMut st, .ok .noContent)

/-! ## The transition system

One event per request that can mutate the registry: the call-initiation
request and the webhook callbacks (menu entry, digit collect, bridge,
hangup).  An event that makes its handler raise leaves the state at
whatever the handler had committed up to the error. -/

/-- One inbound request of the call lifecycle. -/
inductive Event where
  | start (respState : ElkState) (callid lang uid destid : String)
  | menu (callid : String)
  | digit (callid result why : String) (pick : Destination)
  | bridge (callid : String) (now : Nat)
  | hangupEv (callid : String) (tstart : Option Nat) (now : Nat)

/-- The state after handling one event. -/
def step (cfg : Cfg) (e : Event) (st : Registry) : Registry :=
  match e with
  | .start rs callid lang uid destid =>
      (start_elks_call rs callid lang uid destid st).1
  | .menu callid => (instant_main_menu cfg callid st).1
  | .digit callid result why pick => (instant_next cfg callid result why pick st).1
  | .bridge callid now => (instant_connect cfg callid now st).1
  | .hangupEv callid tstart now => (hangup cfg callid tstart now st).1

/-- States reachable from an empty Call Registry (over a fixed Destination
pool) by any sequence of handled requests. -/
inductive Reachable (cfg : Cfg) (dests : List Destination) : Registry → Prop where
  | init : Reachable cfg dests ⟨dests, [], []⟩
  | next : ∀ st e, Reachable cfg dests st → Reachable cfg dests (step cfg e st)

/-! ## Number selection (`phone/utils.py`) -/

/-- A caller-ID number of the pool (`Number` in `phone/elks/models.py`);
only the fields `choose_from_number` reads are carried. -/
structure Number where
  country : String
  number : String
  deriving DecidableEq

/-- `random.choice(xs)`: a uniformly random element of `xs`; raises
IndexError on an empty sequence.  The randomness is modelled by the oracle
index `k`, reduced modulo the length, so every element is a possible
outcome. -/
def choice (xs : List Number) (k : Nat) : Except PyError Number :=
  match xs.get? (k % xs.length) with
  | some n => .ok n
  | none => .error .indexError

/-- `choose_from_number(phone_numbers, language)`: the numbers whose
`country` equals the user language, if any, else the whole pool, passed to
`random.choice`. -/
def choose_from_number (phone_numbers : List Number) (language : String)
    (k : Nat) : Except PyError Number :=
  let lang_numbers := phone_numbers.filter (fun nr => nr.country == language)
  if lang_numbers.length = 0 then
    choice phone_numbers k
  else
    choice lang_numbers k

/-! ## Invariants and observation helpers -/

/-- A call row that counts as active for the `destination_is_in_call`
query: `connected_at` set and `ended_at` unset. -/
def call_is_active (c : Call) : Bool :=
  c.connected_at.isSome && c.ended_at.isNone

/-- Two call rows that are concurrently active for the same destination. -/
def clash (a b : Call) : Bool :=
  call_is_active a && call_is_active b && a.destination_id == b.destination_id

/-- At most one call row per destination has `connected_at` set and
`ended_at` unset. -/
def at_most_one_connected_per_dest (calls : List Call) : Prop :=
  List.Pairwise (fun a b => clash a b = false) calls

/-- No two call rows share the (provider, provider_call_id) key — the
UNIQUE constraint of the `calls` table. -/
def unique_call_keys (calls : List Call) : Prop :=
  List.Pairwise (fun a b => sameKey a b = false) calls

instance (calls : List Call) : Decidable (at_most_one_connected_per_dest calls) := by
  unfold at_most_one_connected_per_dest
  exact List.instDecidablePairwise calls

instance (calls : List Call) : Decidable (unique_call_keys calls) := by
  unfold unique_call_keys
  exact List.instDecidablePairwise calls

instance {ε α : Type} [DecidableEq ε] [DecidableEq α] : DecidableEq (Except ε α) :=
  fun a b =>
    match a, b with
    | .ok x, .ok y =>
      if h : x = y then .isTrue (by rw [h]) else .isFalse (by intro hc; cases hc; exact h rfl)
    | .error x, .error y =>
      if h : x = y then .isTrue (by rw [h]) else .isFalse (by intro hc; cases hc; exact h rfl)
    | .ok _, .error _ => .isFalse (by intro hc; cases hc)
    | .error _, .ok _ => .isFalse (by intro hc; cases hc)

/-- The combined registry invariant: unique call keys (the table
constraint) and at most one concurrently connected call per
destination. -/
def registry_invariant (calls : List Call) : Prop :=
  unique_call_keys calls ∧ at_most_one_connected_per_dest calls

instance (calls : List Call) : Decidable (registry_invariant calls) := by
  unfold registry_invariant
  infer_instance

/-- The check-then-act precondition of the bridge step: the destination of
the bridged call is not in an active call at the time the bridge webhook
is handled.  The code checks this at digit-collect time only, not in
`instant_connect` itself. -/
def bridge_precondition (cfg : Cfg) (e : Event) (st : Registry) : Bool :=
  match e with
  | .bridge callid _ =>
    match get_call callid cfg.provider st.calls with
    | .ok c => !destination_is_in_call c.destination_id st.calls
    | .error _ => true
  | _ => true

/-- Whether a `hangup` mutation is a selection-log append. -/
def isLogMut : Mut → Bool
  | .logApp _ => true
  | .removeRec _ => false

/-- True iff no selection-log append occurs after a call-row removal in
the mutation sequence. -/
def no_log_after_remove : List Mut → Bool
  | [] => true
  | Mut.logApp _ :: rest => no_log_after_remove rest
  | Mut.removeRec _ :: rest =>
    rest.all (fun x => !isLogMut x) && no_log_after_remove rest

/-- The number of selection-log entries of a given event kind. -/
def countEvent (e : SelEvent) (log : List LogEntry) : Nat :=
  log.countP (fun x => x.event == e)

/-! ## Concrete fixtures for counterexamples and witnesses -/

/-- A phone contact. -/
def phoneContact : Contact := ⟨"phone", "+3222841111"⟩

/-- A parliamentary group. -/
def parlGroup : DestGroup := ⟨"G:group1", "parl_group"⟩

/-- Destination D with a phone contact and a parl_group. -/
def destD : Destination := ⟨"D", [phoneContact], [parlGroup]⟩

/-- Destination E with a phone contact and a parl_group. -/
def destE : Destination := ⟨"E", [phoneContact], [parlGroup]⟩

/-- A destination with no contact of type phone. -/
def destNoPhone : Destination := ⟨"N", [⟨"email", "n at example.org"⟩], [parlGroup]⟩

/-- The destination pool of the concrete scenarios. -/
def pool0 : List Destination := [destD, destE, destNoPhone]

/-- The telephony configuration of the concrete scenarios: 46elks
provider, a 30 second short-call threshold, no test_call override. -/
def cfg0 : Cfg := ⟨"46elks", 30, none⟩

/-- The empty initial registry over `pool0`. -/
def reg0 : Registry := ⟨pool0, [], []⟩

/-- A call of user uA to destination D, connected at time 1, not ended. -/
def callA : Call := ⟨"46elks", "cA", "en", "uA", "D", some 1, none⟩

/-- A call of user uB to destination D, not yet connected. -/
def callB : Call := ⟨"46elks", "cB", "en", "uB", "D", none, none⟩

/-- A call of user uN to the destination with no phone contact. -/
def callN : Call := ⟨"46elks", "cN", "en", "uN", "N", none, none⟩

/-- A registry where destination D is busy with the connected call of user
uA while user uB is in the menu targeting D as well. -/
def busyState : Registry := ⟨pool0, [callA, callB], []⟩

/-- The state after starting two calls toward destination D and handling a
bridge webhook for each of them. -/
def twoBridgedState : Registry :=
  step cfg0 (.bridge "c2" 11)
    (step cfg0 (.bridge "c1" 10)
      (step cfg0 (.start .ongoing "c2" "en" "u2" "D")
        (step cfg0 (.start .ongoing "c1" "en" "u1" "D") ⟨pool0, [], []⟩)))

/-- A German caller-ID number. -/
def numDE : Number := ⟨"de", "+491570000000"⟩

/-- A Swedish caller-ID number. -/
def numSE : Number := ⟨"se", "+467000000000"⟩

/-! ## Helper lemmas -/

theorem sameKey_self (c : Call) : sameKey c c = true := by
  simp [sameKey]

theorem sameKey_comm (a b : Call) : sameKey a b = sameKey b a := by
  simp [sameKey, Bool.and_comm, BEq.comm]

theorem is_active_eq_true_iff (d : String) (c : Call) :
    is_active d c = true ↔
      c.destination_id = d ∧ c.connected_at.isSome = true ∧ c.ended_at.isNone = true := by
  simp [is_active, Bool.and_eq_true, and_assoc]

theorem call_is_active_eq_true_iff (c : Call) :
    call_is_active c = true ↔ c.connected_at.isSome = true ∧ c.ended_at.isNone = true := by
  simp [call_is_active, Bool.and_eq_true]

theorem clash_eq_true_iff (a b : Call) :
    clash a b = true ↔
      call_is_active a = true ∧ call_is_active b = true ∧
        a.destination_id = b.destination_id := by
  simp [clash, Bool.and_eq_true, and_assoc]

theorem destination_is_in_call_eq_false_iff (d : String) (calls : List Call) :
    destination_is_in_call d calls = false ↔ ∀ c ∈ calls, is_active d c = false := by
  simp [destination_is_in_call, List.any_eq_false]

theorem get_call_ok_mem {callid prov : String} {calls : List Call} {c : Call}
    (h : get_call callid prov calls = .ok c) : c ∈ calls := by
  unfold get_call at h
  cases hf : calls.find? (fun c => c.provider_call_id == callid && c.provider == prov) with
  | none => rw [hf] at h; cases h
  | some x =>
    rw [hf] at h
    cases h
    exact List.mem_of_find?_eq_some hf

theorem get_call_ok_key {callid prov : String} {calls : List Call} {c : Call}
    (h : get_call callid prov calls = .ok c) :
    c.provider_call_id = callid ∧ c.provider = prov := by
  unfold get_call at h
  cases hf : calls.find? (fun c => c.provider_call_id == callid && c.provider == prov) with
  | none => rw [hf] at h; cases h
  | some x =>
    rw [hf] at h
    cases h
    have := List.find?_some hf
    simpa [Bool.and_eq_true] using this

theorem add_call_ok_elim {prov cid lang uid did : String} {calls calls' : List Call}
    (h : add_call prov cid lang uid did calls = .ok calls') :
    calls' = calls ++ [⟨prov, cid, lang, uid, did, none, none⟩] ∧
      ∀ a ∈ calls, sameKey a ⟨prov, cid, lang, uid, did, none, none⟩ = false := by
  unfold add_call at h
  by_cases hany : calls.any (fun c => c.provider == prov && c.provider_call_id == cid) = true
  · rw [if_pos hany] at h; cases h
  · rw [if_neg hany] at h
    cases h
    refine ⟨rfl, ?_⟩
    intro a ha
    have := (List.any_eq_false.mp (Bool.eq_false_iff.mpr hany)) a ha
    simpa [sameKey] using this

theorem map_id_of {α : Type} (f : α → α) (l : List α) (h : ∀ y ∈ l, f y = y) :
    l.map f = l := by
  induction l with
  | nil => rfl
  | cons x xs ih =>
    rw [List.map_cons, h x (List.mem_cons_self x xs),
      ih (fun y hy => h y (List.mem_cons_of_mem x hy))]

theorem uniqueKeys_append (calls : List Call) (x : Call)
    (h : unique_call_keys calls) (hx : ∀ a ∈ calls, sameKey a x = false) :
    unique_call_keys (calls ++ [x]) := by
  unfold unique_call_keys at *
  rw [List.pairwise_append]
  refine ⟨h, List.pairwise_singleton _ _, ?_⟩
  intro a ha b hb
  rw [List.mem_singleton] at hb
  subst hb
  exact hx a ha

theorem atMostOne_append_inactive (calls : List Call) (x : Call)
    (h : at_most_one_connected_per_dest calls) (hx : call_is_active x = false) :
    at_most_one_connected_per_dest (calls ++ [x]) := by
  unfold at_most_one_connected_per_dest at *
  rw [List.pairwise_append]
  refine ⟨h, List.pairwise_singleton _ _, ?_⟩
  intro a ha b hb
  rw [List.mem_singleton] at hb
  subst hb
  simp [clash, hx]

theorem uniqueKeys_filter (p : Call → Bool) (calls : List Call)
    (h : unique_call_keys calls) : unique_call_keys (calls.filter p) :=
  List.Pairwise.sublist (List.filter_sublist calls) h

theorem atMostOne_filter (p : Call → Bool) (calls : List Call)
    (h : at_most_one_connected_per_dest calls) :
    at_most_one_connected_per_dest (calls.filter p) :=
  List.Pairwise.sublist (List.filter_sublist calls) h

theorem sameKey_connectf (call : Call) (now : Nat) (a b : Call) :
    sameKey (if sameKey a call then { a with connected_at := some now } else a)
      (if sameKey b call then { b with connected_at := some now } else b) =
      sameKey a b := by
  by_cases h1 : sameKey a call = true
  · by_cases h2 : sameKey b call = true
    · rw [if_pos h1, if_pos h2]
      simp [sameKey]
    · rw [if_pos h1, if_neg h2]
      simp [sameKey]
  · by_cases h2 : sameKey b call = true
    · rw [if_neg h1, if_pos h2]
      simp [sameKey]
    · rw [if_neg h1, if_neg h2]

theorem uniqueKeys_connect (call : Call) (now : Nat) (calls : List Call)
    (h : unique_call_keys calls) :
    unique_call_keys (connect_call call now calls) := by
  unfold unique_call_keys connect_call at *
  rw [List.pairwise_map]
  exact h.imp (fun hab => by rw [sameKey_connectf]; exact hab)

theorem atMostOne_connect (call : Call) (now : Nat) (calls : List Call)
    (hmem : call ∈ calls)
    (hu : unique_call_keys calls)
    (hi : at_most_one_connected_per_dest calls)
    (hfree : destination_is_in_call call.destination_id calls = false) :
    at_most_one_connected_per_dest (connect_call call now calls) := by
  obtain ⟨l1, l2, rfl⟩ := List.append_of_mem hmem
  have hfree' := (destination_is_in_call_eq_false_iff _ _).mp hfree
  unfold unique_call_keys at hu
  rw [List.pairwise_append] at hu
  obtain ⟨-, hu2, hu3⟩ := hu
  rw [List.pairwise_cons] at hu2
  obtain ⟨hcl2, -⟩ := hu2
  have hmap : connect_call call now (l1 ++ call :: l2) =
      l1 ++ { call with connected_at := some now } :: l2 := by
    unfold connect_call
    rw [List.map_append, List.map_cons]
    rw [map_id_of _ l1 (fun y hy => by
      rw [if_neg]
      rw [hu3 y hy call (List.mem_cons_self call l2)]
      exact Bool.false_ne_true)]
    rw [if_pos (sameKey_self call)]
    rw [map_id_of _ l2 (fun y hy => by
      rw [if_neg]
      rw [sameKey_comm, hcl2 y hy]
      exact Bool.false_ne_true)]
  rw [hmap]
  unfold at_most_one_connected_per_dest at hi ⊢
  rw [List.pairwise_append] at hi ⊢
  obtain ⟨hi1, hi2, hi3⟩ := hi
  rw [List.pairwise_cons] at hi2 ⊢
  obtain ⟨hi2a, hi2b⟩ := hi2
  have hinact : ∀ y, y ∈ l1 ++ call :: l2 →
      y.destination_id = call.destination_id → call_is_active y = false := by
    intro y hy hd
    have := hfree' y hy
    by_cases hact : call_is_active y = true
    · exfalso
      obtain ⟨h1, h2⟩ := (call_is_active_eq_true_iff y).mp hact
      rw [(is_active_eq_true_iff call.destination_id y).mpr ⟨hd, h1, h2⟩] at this
      cases this
    · exact Bool.eq_false_iff.mpr hact
  refine ⟨hi1, ⟨?_, hi2b⟩, ?_⟩
  · intro b hb
    by_cases hc : clash { call with connected_at := some now } b = true
    · exfalso
      obtain ⟨-, hb2, hb3⟩ := (clash_eq_true_iff _ _).mp hc
      have : call_is_active b = false := by
        refine hinact b ?_ hb3.symm
        exact List.mem_append_right l1 (List.mem_cons_of_mem call hb)
      rw [this] at hb2
      cases hb2
    · exact Bool.eq_false_iff.mpr hc
  · intro a ha b hb
    rcases List.mem_cons.mp hb with rfl | hb2
    · by_cases hc : clash a { call with connected_at := some now } = true
      · exfalso
        obtain ⟨ha2, -, hb3⟩ := (clash_eq_true_iff _ _).mp hc
        have : call_is_active a = false := by
          refine hinact a (List.mem_append_left _ ha) ?_
          simpa using hb3
        rw [this] at ha2
        cases ha2
      · exact Bool.eq_false_iff.mpr hc
    · exact hi3 a ha b (List.mem_cons_of_mem call hb2)

theorem registry_invariant_add {prov cid lang uid did : String} {calls calls' : List Call}
    (h : add_call prov cid lang uid did calls = .ok calls')
    (hinv : registry_invariant calls) : registry_invariant calls' := by
  obtain ⟨heq, hkeys⟩ := add_call_ok_elim h
  subst heq
  exact ⟨uniqueKeys_append _ _ hinv.1 hkeys,
    atMostOne_append_inactive _ _ hinv.2 rfl⟩

theorem registry_invariant_remove (c : Call) (calls : List Call)
    (h : registry_invariant calls) : registry_invariant (remove_call c calls) :=
  ⟨uniqueKeys_filter _ _ h.1, atMostOne_filter _ _ h.2⟩

theorem start_elks_call_preserves (rs : ElkState) (cid lang uid did : String)
    (st : Registry) (h : registry_invariant st.calls) :
    registry_invariant ((start_elks_call rs cid lang uid did st).1).calls := by
  unfold start_elks_call
  by_cases hrs : rs = ElkState.failed
  · rw [if_pos hrs]
    exact h
  · rw [if_neg hrs]
    cases hadd : add_call "46elks" cid lang uid did st.calls with
    | error e => exact h
    | ok calls1 =>
      cases hdest : getDest st.dests did with
      | none => exact registry_invariant_add hadd h
      | some dest => exact registry_invariant_add hadd h

theorem instant_main_menu_preserves (cfg : Cfg) (cid : String) (st : Registry)
    (h : registry_invariant st.calls) :
    registry_invariant ((instant_main_menu cfg cid st).1).calls := by
  unfold instant_main_menu
  cases hc : get_call cid cfg.provider st.calls with
  | error e => exact h
  | ok call => exact h

theorem instant_connect_to_mep_preserves (cfg : Cfg) (call : Call) (cid : String)
    (pick : Destination) (st : Registry) (h : registry_invariant st.calls) :
    registry_invariant ((instant_connect_to_mep cfg call cid pick st).1).calls := by
  unfold instant_connect_to_mep
  by_cases hb : destination_is_in_call call.destination_id st.calls = true
  · rw [if_pos hb]
    cases halt : get_alternative_destination pick st.calls with
    | error e => exact h
    | ok nd =>
      dsimp only
      cases hg : nd.groups.filter (fun g => g.type == "parl_group") with
      | nil => exact h
      | cons g gs =>
        dsimp only
        have h1 : registry_invariant (remove_call call st.calls) :=
          registry_invariant_remove _ _ h
        cases hadd : add_call cfg.provider cid call.user_language call.user_id nd.id
            (remove_call call st.calls) with
        | error e => exact h1
        | ok calls2 =>
          dsimp only
          have h2 := registry_invariant_add hadd h1
          cases hgc : get_call cid cfg.provider calls2 with
          | error e => exact h2
          | ok call2 => exact h2
  · rw [if_neg hb]
    exact h

theorem instant_next_preserves (cfg : Cfg) (cid result why : String) (pick : Destination)
    (st : Registry) (h : registry_invariant st.calls) :
    registry_invariant ((instant_next cfg cid result why pick st).1).calls := by
  unfold instant_next
  by_cases hni : check_no_input result why = true
  · rw [if_pos hni]
    exact h
  · rw [if_neg hni]
    cases hc : get_call cid cfg.provider st.calls with
    | error e => exact h
    | ok call =>
      dsimp only
      by_cases h1 : (result == "1") = true
      · rw [if_pos h1]
        exact instant_connect_to_mep_preserves cfg call cid pick st h
      · rw [if_neg h1]
        by_cases h5 : (result == "5") = true
        · rw [if_pos h5]
          exact h
        · rw [if_neg h5]
          exact h

theorem instant_connect_preserves (cfg : Cfg) (cid : String) (now : Nat) (st : Registry)
    (h : registry_invariant st.calls)
    (hpre : bridge_precondition cfg (Event.bridge cid now) st = true) :
    registry_invariant ((instant_connect cfg cid now st).1).calls := by
  unfold instant_connect
  cases hc : get_call cid cfg.provider st.calls with
  | error e => exact h
  | ok call =>
    dsimp only
    cases hd : getDest st.dests call.destination_id with
    | none => exact h
    | some dest =>
      dsimp only
      have hfree : destination_is_in_call call.destination_id st.calls = false := by
        simp only [bridge_precondition, hc] at hpre
        simpa using hpre
      exact ⟨uniqueKeys_connect _ _ _ h.1,
        atMostOne_connect call now st.calls (get_call_ok_mem hc) h.1 h.2 hfree⟩

theorem applyMut_preserves (st : Registry) (m : Mut) (h : registry_invariant st.calls) :
    registry_invariant (applyMut st m).calls := by
  cases m with
  | logApp e => exact h
  | removeRec c => exact registry_invariant_remove _ _ h

theorem foldl_applyMut_preserves (ms : List Mut) :
    ∀ st : Registry, registry_invariant st.calls →
      registry_invariant ((ms.foldl applyMut st).calls) := by
  induction ms with
  | nil =>
    intro st h
    exact h
  | cons m ms ih =>
    intro st h
    exact ih _ (applyMut_preserves st m h)

theorem hangup_preserves (cfg : Cfg) (cid : String) (tstart : Option Nat) (now : Nat)
    (st : Registry) (h : registry_invariant st.calls) :
    registry_invariant ((hangup cfg cid tstart now st).1).calls := by
  unfold hangup
  cases hc : get_call cid cfg.provider st.calls with
  | error e => exact h
  | ok call => exact foldl_applyMut_preserves _ st h

/-! ## Claim C1 -/

/-- Claim C1, counterexample: the claimed invariant — at most one Call per
Destination with connected_at set and ended_at unset, in every state
reachable from the empty Registry — fails.  Starting two calls toward
destination D and handling a bridge webhook for each (the bridge handler
performs no busy check of its own) yields a reachable state in which two
Calls for D are concurrently connected. -/
theorem C1_counterexample :
    Reachable cfg0 pool0 twoBridgedState ∧
      ¬ at_most_one_connected_per_dest twoBridgedState.calls := by
  constructor
  · exact .next _ (.bridge "c2" 11)
      (.next _ (.bridge "c1" 10)
        (.next _ (.start .ongoing "c2" "en" "u2" "D")
          (.next _ (.start .ongoing "c1" "en" "u1" "D") .init)))
  · decide

/-- Claim C1 (amended): one handled request preserves the registry
invariant — unique (provider, provider_call_id) keys and at most one
concurrently connected Call per Destination — for every event except an
unguarded bridge: the menu, digit-collect and hangup handlers preserve it
unconditionally, and the bridge step preserves it exactly under the
check-then-act precondition (the bridged call targets a Destination with
no active call) that the code checks only at digit-collect time, not in
the bridge handler itself. -/
theorem C1_amended_invariant_preservation (cfg : Cfg) (e : Event) (st : Registry)
    (hinv : registry_invariant st.calls)
    (hpre : bridge_precondition cfg e st = true) :
    registry_invariant (step cfg e st).calls := by
  cases e with
  | start rs callid lang uid destid =>
    exact start_elks_call_preserves rs callid lang uid destid st hinv
  | menu callid => exact instant_main_menu_preserves cfg callid st hinv
  | digit callid result why pick =>
    exact instant_next_preserves cfg callid result why pick st hinv
  | bridge callid now => exact instant_connect_preserves cfg callid now st hinv hpre
  | hangupEv callid tstart now => exact hangup_preserves cfg callid tstart now st hinv

/-- Witness for the amended C1 theorem: a concrete bridge of a fresh call
satisfying the precondition keeps the invariant. -/
theorem C1_amended_witness :
    registry_invariant (step cfg0 (Event.bridge "cB" 5) ⟨pool0, [callB], []⟩).calls :=
  C1_amended_invariant_preservation cfg0 (Event.bridge "cB" 5) ⟨pool0, [callB], []⟩
    (by decide) (by decide)

/-! ## Claim C2 -/

/-- Claim C2, counterexample: invoking the hangup handler for a callid
that is not in the Registry raises — the lookup error propagates out of
the handler — contradicting the claim that it does not raise an error. -/
theorem C2_counterexample :
    hangup cfg0 "gone" none 5 reg0 = (reg0, Except.error PyError.callError) := by
  decide

/-- Claim C2 (amended): for a callid no longer present in the Registry the
hangup handler fails with the registry-lookup error before performing any
mutation: the state — in particular the selection log — is returned
unchanged, so a duplicate delivery appends no additional terminal event;
but the handler raises rather than logging and returning cleanly. -/
theorem C2_amended_hangup_missing (cfg : Cfg) (callid : String) (tstart : Option Nat)
    (now : Nat) (st : Registry)
    (h : st.calls.find?
      (fun c => c.provider_call_id == callid && c.provider == cfg.provider) = none) :
    hangup cfg callid tstart now st = (st, Except.error PyError.callError) := by
  unfold hangup get_call
  rw [h]

/-- Witness for the amended C2 theorem at a concrete missing callid. -/
theorem C2_amended_witness :
    hangup cfg0 "zz" (some 3) 9 busyState = (busyState, Except.error PyError.callError) :=
  C2_amended_hangup_missing cfg0 "zz" (some 3) 9 busyState (by decide)

/-! ## Claims C3 and C4 -/

theorem foldl_applyMut_log (ms : List Mut) :
    ∀ st : Registry, (ms.foldl applyMut st).log =
      st.log ++ ms.filterMap (fun m => match m with
        | .logApp e => some e
        | .removeRec _ => none) := by
  induction ms with
  | nil =>
    intro st
    simp
  | cons m ms ih =>
    intro st
    cases m with
    | logApp e =>
      rw [List.foldl_cons, ih]
      simp [applyMut]
    | removeRec c =>
      rw [List.foldl_cons, ih]
      simp [applyMut]

/-- Claim C3, counterexample: for a hangup webhook whose `start` field is
missing, the handler appends the terminal entry, removes the Call record,
and then appends `CALLING_USER_FAILED` after the removal — so the removal
is not the final mutating step and not every selection-log append precedes
it. -/
theorem C3_counterexample :
    hangup_muts cfg0 callB none 5 =
      [Mut.logApp ⟨"D", SelEvent.CALL_ABORTED, some "uB", some "cB"⟩,
       Mut.removeRec callB,
       Mut.logApp ⟨"D", SelEvent.CALLING_USER_FAILED, some "uB", some "cB"⟩] ∧
    no_log_after_remove (hangup_muts cfg0 callB none 5) = false := by
  exact ⟨by decide, by decide⟩

/-- Claim C3 (amended): the hangup handler performs, in order, exactly one
terminal classification append (FINISHED_SHORT_CALL, FINISHED_CALL or
CALL_ABORTED), then the removal of the Call record, then — only when the
webhook carried no `start` field — a `CALLING_USER_FAILED` append after
the removal.  Hence the terminal classification entry is always appended
before the removal, and the removal is the final mutating step exactly
when `start` is present. -/
theorem C3_amended_hangup_order (cfg : Cfg) (call : Call) (tstart : Option Nat)
    (now : Nat) :
    (∃ ev, (ev = SelEvent.FINISHED_SHORT_CALL ∨ ev = SelEvent.FINISHED_CALL ∨
        ev = SelEvent.CALL_ABORTED) ∧
      hangup_muts cfg call tstart now =
        Mut.logApp (selEntry call ev) :: Mut.removeRec call ::
          (match tstart with
           | none => [Mut.logApp (selEntry call SelEvent.CALLING_USER_FAILED)]
           | some _ => [])) ∧
    (tstart.isSome = true →
      no_log_after_remove (hangup_muts cfg call tstart now) = true) := by
  have hshape : ∃ ev, (ev = SelEvent.FINISHED_SHORT_CALL ∨ ev = SelEvent.FINISHED_CALL ∨
      ev = SelEvent.CALL_ABORTED) ∧
      hangup_muts cfg call tstart now =
        Mut.logApp (selEntry call ev) :: Mut.removeRec call ::
          (match tstart with
           | none => [Mut.logApp (selEntry call SelEvent.CALLING_USER_FAILED)]
           | some _ => []) := by
    unfold hangup_muts
    cases hc : call.connected_at with
    | some t =>
      dsimp only
      by_cases hth : (now : Int) - (t : Int) ≤ cfg.phone_call_threshhold
      · refine ⟨SelEvent.FINISHED_SHORT_CALL, Or.inl rfl, ?_⟩
        rw [if_pos hth]
        cases tstart <;> rfl
      · refine ⟨SelEvent.FINISHED_CALL, Or.inr (Or.inl rfl), ?_⟩
        rw [if_neg hth]
        cases tstart <;> rfl
    | none =>
      refine ⟨SelEvent.CALL_ABORTED, Or.inr (Or.inr rfl), ?_⟩
      cases tstart <;> rfl
  refine ⟨hshape, ?_⟩
  intro hsome
  obtain ⟨ev, -, heq⟩ := hshape
  rw [heq]
  cases tstart with
  | none => simp at hsome
  | some t0 => rfl

/-- Witness for the amended C3 theorem: with `start` present, no log
append happens after the removal. -/
theorem C3_amended_witness :
    no_log_after_remove (hangup_muts cfg0 callA (some 0) 20) = true :=
  (C3_amended_hangup_order cfg0 callA (some 0) 20).2 rfl

/-- Claim C4: for a hangup webhook on a Call present in the Registry: if
the Call had been connected, the handler appends exactly one of
FINISHED_SHORT_CALL or FINISHED_CALL — FINISHED_SHORT_CALL precisely when
the computed connected duration is at most the configured threshold — and
if the Call was never connected it appends CALL_ABORTED and no FINISHED
event (the only other possible append is the CALLING_USER_FAILED entry
for a missing `start` field, shown explicitly). -/
theorem C4_hangup_classification (cfg : Cfg) (callid : String) (tstart : Option Nat)
    (now : Nat) (st : Registry) (call : Call)
    (hc : get_call callid cfg.provider st.calls = .ok call) :
    (∀ t, call.connected_at = some t →
      (hangup cfg callid tstart now st).1.log =
        st.log ++ [selEntry call
            (if (now : Int) - (t : Int) ≤ cfg.phone_call_threshhold
             then SelEvent.FINISHED_SHORT_CALL else SelEvent.FINISHED_CALL)] ++
          (match tstart with
           | none => [selEntry call SelEvent.CALLING_USER_FAILED]
           | some _ => [])) ∧
    (call.connected_at = none →
      (hangup cfg callid tstart now st).1.log =
        st.log ++ [selEntry call SelEvent.CALL_ABORTED] ++
          (match tstart with
           | none => [selEntry call SelEvent.CALLING_USER_FAILED]
           | some _ => [])) := by
  constructor
  · intro t hct
    unfold hangup
    rw [hc]
    dsimp only
    rw [foldl_applyMut_log]
    unfold hangup_muts
    rw [hct]
    dsimp only
    by_cases hth : (now : Int) - (t : Int) ≤ cfg.phone_call_threshhold
    · rw [if_pos hth, if_pos hth]
      cases tstart <;> simp
    · rw [if_neg hth, if_neg hth]
      cases tstart <;> simp
  · intro hct
    unfold hangup
    rw [hc]
    dsimp only
    rw [foldl_applyMut_log]
    unfold hangup_muts
    rw [hct]
    dsimp only
    cases tstart <;> simp

/-- Witness for the C4 theorem: a connected call hung up within the
threshold is classified FINISHED_SHORT_CALL. -/
theorem C4_witness :
    (hangup cfg0 "cA" (some 0) 20 busyState).1.log =
      [] ++ [selEntry callA
          (if (20 : Int) - ((1 : Nat) : Int) ≤ cfg0.phone_call_threshhold
           then SelEvent.FINISHED_SHORT_CALL else SelEvent.FINISHED_CALL)] ++ [] :=
  (C4_hangup_classification cfg0 "cA" (some 0) 20 busyState callA (by decide)).1 1 rfl

/-! ## Claim C5 -/

theorem remove_call_keys (call : Call) (calls : List Call) :
    ∀ y ∈ remove_call call calls, sameKey y call = false := by
  intro y hy
  obtain ⟨-, hk⟩ := List.mem_filter.mp hy
  cases hsk : sameKey y call with
  | false => rfl
  | true =>
    rw [hsk] at hk
    exact absurd hk (by decide)

theorem get_alternative_destination_free (pick : Destination) (calls : List Call)
    (h : destination_is_in_call pick.id calls = false) :
    get_alternative_destination pick calls = Except.ok pick := by
  unfold get_alternative_destination
  rw [if_neg]
  rw [h]
  exact Bool.false_ne_true

theorem find?_append_singleton {α : Type} (q : α → Bool) (l : List α) (x : α)
    (hl : ∀ y ∈ l, q y = false) (hx : q x = true) :
    (l ++ [x]).find? q = some x := by
  induction l with
  | nil =>
    rw [List.nil_append]
    rw [List.find?_cons_of_pos _ hx]
  | cons a as ih =>
    rw [List.cons_append]
    rw [List.find?_cons_of_neg]
    · exact ih (fun y hy => hl y (List.mem_cons_of_mem a hy))
    · rw [hl a (List.mem_cons_self a as)]
      exact Bool.false_ne_true

/-- Claim C5, counterexample: destination D is busy with the connected
call of user uA; user uB presses 1 targeting D; the random draw is D
itself (busy), so instead of selecting an alternative free Destination and
logging IVR_SUGGESTED, the handler raises TypeError (the retry call omits
its session argument) and changes nothing. -/
theorem C5_counterexample :
    instant_next cfg0 "cB" "1" "none" destD busyState =
      (busyState, Except.error PyError.typeError) := by
  decide

/-- Claim C5 (amended): when the target Destination of the resolved call
is busy and the single random draw `pick` is itself not in an active call
and carries a parl_group group, the digit-1 handler selects `pick` (which
is then necessarily distinct from the busy Destination), removes the old
Call record and re-creates it against the id of `pick` with the same
provider call id, and appends exactly one IVR_SUGGESTED entry for `pick`
— in particular no CALLING_DESTINATION entry for the busy Destination.
If the draw is busy, the handler instead fails with a TypeError (the
retry omits the session argument), as the counterexample shows. -/
theorem C5_amended_busy_redirect (cfg : Cfg) (callid why : String) (pick : Destination)
    (st : Registry) (call : Call)
    (hc : get_call callid cfg.provider st.calls = .ok call)
    (hbusy : destination_is_in_call call.destination_id st.calls = true)
    (hfree : destination_is_in_call pick.id st.calls = false)
    (hgrp : pick.groups.filter (fun g => g.type == "parl_group") ≠ []) :
    pick.id ≠ call.destination_id ∧
    instant_next cfg callid "1" why pick st =
      ({ st with
          calls := remove_call call st.calls ++
            [⟨cfg.provider, callid, call.user_language, call.user_id, pick.id, none, none⟩]
          log := st.log ++ [⟨pick.id, SelEvent.IVR_SUGGESTED,
            some call.user_id, some callid⟩] },
       Except.ok ElkAction.ivrSuggestAlternative) := by
  obtain ⟨hkid, hkprov⟩ := get_call_ok_key hc
  constructor
  · intro heq
    rw [heq, hbusy] at hfree
    exact absurd hfree (by decide)
  · have hni : ¬ (check_no_input "1" why = true) := by
      unfold check_no_input
      rw [show (("1" : String) == "failed") = false from rfl, Bool.false_and]
      exact Bool.false_ne_true
    unfold instant_next
    rw [if_neg hni, hc]
    dsimp only
    rw [if_pos (show (("1" : String) == "1") = true from rfl)]
    unfold instant_connect_to_mep
    rw [if_pos hbusy, get_alternative_destination_free pick st.calls hfree]
    dsimp only
    cases hg : pick.groups.filter (fun g => g.type == "parl_group") with
    | nil => exact absurd hg hgrp
    | cons g gs =>
      dsimp only
      have hany : (remove_call call st.calls).any
          (fun c => c.provider == cfg.provider && c.provider_call_id == callid) = false := by
        rw [List.any_eq_false]
        intro x hx hco
        have hk := remove_call_keys call st.calls x hx
        rw [← hkprov, ← hkid] at hco
        have hsk : sameKey x call = true := hco
        rw [hk] at hsk
        exact absurd hsk (by decide)
      have hadd : add_call cfg.provider callid call.user_language call.user_id pick.id
          (remove_call call st.calls) =
          Except.ok (remove_call call st.calls ++
            [⟨cfg.provider, callid, call.user_language, call.user_id, pick.id,
              none, none⟩]) := by
        unfold add_call
        rw [if_neg]
        rw [hany]
        exact Bool.false_ne_true
      rw [hadd]
      dsimp only
      have hfd : (remove_call call st.calls ++
          [(⟨cfg.provider, callid, call.user_language, call.user_id, pick.id,
            none, none⟩ : Call)]).find?
            (fun c => c.provider_call_id == callid && c.provider == cfg.provider) =
          some ⟨cfg.provider, callid, call.user_language, call.user_id, pick.id,
            none, none⟩ := by
        refine find?_append_singleton _ _ _ ?_ ?_
        · intro y hy
          have hk := remove_call_keys call st.calls y hy
          cases hco : (y.provider_call_id == callid && y.provider == cfg.provider) with
          | false => rfl
          | true =>
            rw [Bool.and_eq_true] at hco
            obtain ⟨hco1, hco2⟩ := hco
            have hsk : sameKey y call = true := by
              unfold sameKey
              rw [hkprov, hkid, hco2, hco1]
              rfl
            rw [hk] at hsk
            exact absurd hsk (by decide)
        · rw [show ((callid == callid) = true) from beq_self_eq_true callid]
          rw [show ((cfg.provider == cfg.provider) = true) from beq_self_eq_true cfg.provider]
          rfl
      have hget2 : get_call callid cfg.provider
          (remove_call call st.calls ++
            [⟨cfg.provider, callid, call.user_language, call.user_id, pick.id,
              none, none⟩]) =
          Except.ok ⟨cfg.provider, callid, call.user_language, call.user_id, pick.id,
            none, none⟩ := by
        unfold get_call
        rw [hfd]
      rw [hget2]

/-- Witness for the amended C5 theorem: destination D busy with the call
of user uA, the draw is the free destination E. -/
theorem C5_amended_witness :
    destE.id ≠ callB.destination_id ∧
    instant_next cfg0 "cB" "1" "x" destE busyState =
      ({ busyState with
          calls := remove_call callB busyState.calls ++
            [⟨"46elks", "cB", "en", "uB", "E", none, none⟩]
          log := [⟨"E", SelEvent.IVR_SUGGESTED, some "uB", some "cB"⟩] },
       Except.ok ElkAction.ivrSuggestAlternative) :=
  C5_amended_busy_redirect cfg0 "cB" "x" destE busyState callB (by decide) (by decide)
    (by decide) (by decide)

/-! ## Claim C6 -/

/-- Claim C6, counterexample: the claimed consequence that
destinationIsInCall is false immediately after createCall fails when
another connected Call for the same destination already exists: after
creating the fresh call cB for destination D next to the connected call
cA, the predicate is still true. -/
theorem C6_counterexample :
    add_call "46elks" "cB" "en" "uB" "D" [callA] = Except.ok [callA, callB] ∧
    destination_is_in_call "D" [callA, callB] = true := by
  exact ⟨by decide, by decide⟩

/-- Claim C6 (amended): destinationIsInCall(d) is true iff some Call for d
has connected_at set and ended_at unset; createCall never changes the
value of the predicate (so it is false after createCall exactly when it
was false before, e.g. on a fresh registry); after connectCall(c) for a
registered, not-ended call c the predicate is true for the destination of
c; and after endCall(c) following connectCall(c) it is false again
provided no other Call for that destination was active. -/
theorem C6_amended_destination_in_call :
    (∀ (d : String) (calls : List Call),
      destination_is_in_call d calls = true ↔
        ∃ c, c ∈ calls ∧ c.destination_id = d ∧ c.connected_at.isSome = true ∧
          c.ended_at = none) ∧
    (∀ (d prov cid lang uid did : String) (calls calls' : List Call),
      add_call prov cid lang uid did calls = Except.ok calls' →
        destination_is_in_call d calls' = destination_is_in_call d calls) ∧
    (∀ (c : Call) (calls : List Call) (now : Nat),
      c ∈ calls → c.ended_at = none →
        destination_is_in_call c.destination_id (connect_call c now calls) = true) ∧
    (∀ (c : Call) (calls : List Call) (n1 n2 : Nat),
      destination_is_in_call c.destination_id calls = false →
        destination_is_in_call c.destination_id
          (end_call c n2 (connect_call c n1 calls)) = false) := by
  refine ⟨?_, ?_, ?_, ?_⟩
  · intro d calls
    rw [destination_is_in_call, List.any_eq_true]
    constructor
    · rintro ⟨c, hmem, hact⟩
      obtain ⟨h1, h2, h3⟩ := (is_active_eq_true_iff d c).mp hact
      exact ⟨c, hmem, h1, h2, Option.isNone_iff_eq_none.mp h3⟩
    · rintro ⟨c, hmem, h1, h2, h3⟩
      exact ⟨c, hmem, (is_active_eq_true_iff d c).mpr
        ⟨h1, h2, Option.isNone_iff_eq_none.mpr h3⟩⟩
  · intro d prov cid lang uid did calls calls' hadd
    obtain ⟨heq, -⟩ := add_call_ok_elim hadd
    subst heq
    rw [destination_is_in_call, destination_is_in_call, List.any_append]
    have hnew : List.any [(⟨prov, cid, lang, uid, did, none, none⟩ : Call)]
        (is_active d) = false := by
      simp [is_active]
    rw [hnew, Bool.or_false]
  · intro c calls now hmem hend
    rw [destination_is_in_call, List.any_eq_true]
    refine ⟨{ c with connected_at := some now }, ?_, ?_⟩
    · unfold connect_call
      have hfc : (fun x => if sameKey x c then { x with connected_at := some now } else x) c
          = { c with connected_at := some now } := by
        dsimp only
        rw [if_pos (sameKey_self c)]
      rw [← hfc]
      exact List.mem_map_of_mem _ hmem
    · rw [is_active_eq_true_iff]
      refine ⟨rfl, rfl, ?_⟩
      show c.ended_at.isNone = true
      rw [hend]
      rfl
  · intro c calls n1 n2 hfree
    rw [destination_is_in_call_eq_false_iff] at hfree ⊢
    intro x hx
    unfold end_call connect_call at hx
    rw [List.map_map] at hx
    obtain ⟨y, hy, rfl⟩ := List.mem_map.mp hx
    rw [Function.comp_apply]
    by_cases hsk : sameKey y c = true
    · rw [if_pos hsk]
      rw [if_pos (show sameKey { y with connected_at := some n1 } c = true from hsk)]
      simp [is_active]
    · rw [if_neg hsk, if_neg hsk]
      exact hfree y hy

/-- Witness for the amended C6 theorem: after connectCall on a fresh
registered call, destinationIsInCall is true for its destination. -/
theorem C6_amended_witness :
    destination_is_in_call "D" (connect_call callB 5 [callB]) = true :=
  C6_amended_destination_in_call.2.2.1 callB [callB] 5 (by decide) rfl

/-! ## Claim C7 -/

/-- Claim C7, counterexample: on a `failed` synchronous response state,
start_elks_call returns without creating a registry Call, but it does not
append a CALLING_USER_FAILED selection-log event (it only emits a warning
to the Python logger): the state is returned completely unchanged and the
log contains no CALLING_USER_FAILED entry. -/
theorem C7_counterexample :
    start_elks_call ElkState.failed "c9" "en" "u9" "D" reg0 =
      (reg0, Except.ok ElkState.failed) ∧
    countEvent SelEvent.CALLING_USER_FAILED
      (start_elks_call ElkState.failed "c9" "en" "u9" "D" reg0).1.log = 0 := by
  exact ⟨by decide, by decide⟩

/-- Claim C7 (amended): on a `failed` response state start_elks_call
returns without creating a registry Call and without appending any
selection-log event (only a logger warning); on every non-failed state
(ongoing, success, busy) it registers the Call and appends exactly one
CALLING_USER entry. -/
theorem C7_amended_start_call (rs : ElkState) (cid lang uid did : String)
    (st : Registry) :
    (rs = ElkState.failed →
      start_elks_call rs cid lang uid did st = (st, Except.ok rs)) ∧
    (rs ≠ ElkState.failed →
      ∀ dest, getDest st.dests did = some dest →
        ∀ calls', add_call "46elks" cid lang uid did st.calls = Except.ok calls' →
          start_elks_call rs cid lang uid did st =
            ({ st with
                calls := calls'
                log := st.log ++ [⟨dest.id, SelEvent.CALLING_USER, some uid, some cid⟩] },
             Except.ok rs)) := by
  constructor
  · intro h
    unfold start_elks_call
    rw [if_pos h]
  · intro h dest hdest calls' hadd
    unfold start_elks_call
    rw [if_neg h, hadd]
    dsimp only
    rw [hdest]

/-- Witness for the amended C7 theorem: a non-failed initiation registers
the call and logs CALLING_USER. -/
theorem C7_amended_witness :
    start_elks_call ElkState.ongoing "c9" "en" "u9" "D" reg0 =
      ({ reg0 with
          calls := [⟨"46elks", "c9", "en", "u9", "D", none, none⟩]
          log := [⟨"D", SelEvent.CALLING_USER, some "u9", some "c9"⟩] },
       Except.ok ElkState.ongoing) :=
  (C7_amended_start_call ElkState.ongoing "c9" "en" "u9" "D" reg0).2 (by decide)
    destD (by decide) [⟨"46elks", "c9", "en", "u9", "D", none, none⟩] (by decide)

/-! ## Claim C8 -/

/-- Claim C8, counterexample: with destination D already in an active
call, a draw of D itself does not lead to a retried selection until a free
Destination is found — the attempted retry raises TypeError immediately
(the recursive call omits the required session argument), and no policy
bound exists in the code. -/
theorem C8_counterexample :
    get_alternative_destination destD [callA] = Except.error PyError.typeError := by
  decide

/-- Claim C8 (amended): the alternative-destination selection draws one
random Destination and terminates for every pool state, but not by
retrying: if the draw is not in an active call it is returned, and if the
draw is busy the function fails at once with a TypeError, because the
retry call drops the mandatory session argument; no retry loop or policy
bound is ever reached. -/
theorem C8_amended_selection_dichotomy (pick : Destination) (calls : List Call) :
    (destination_is_in_call pick.id calls = false →
      get_alternative_destination pick calls = Except.ok pick) ∧
    (destination_is_in_call pick.id calls = true →
      get_alternative_destination pick calls = Except.error PyError.typeError) := by
  constructor
  · intro h
    unfold get_alternative_destination
    rw [if_neg]
    rw [h]
    exact Bool.false_ne_true
  · intro h
    unfold get_alternative_destination
    rw [if_pos h]

/-- Witness for the amended C8 theorem: a free draw is returned as is. -/
theorem C8_amended_witness :
    get_alternative_destination destE [callA] = Except.ok destE :=
  (C8_amended_selection_dichotomy destE [callA]).1 (by decide)

/-! ## Claim C9 -/

theorem choice_ok (xs : List Number) (k : Nat) (h : xs ≠ []) :
    ∃ m, choice xs k = Except.ok m ∧ m ∈ xs := by
  unfold choice
  have hlen : 0 < xs.length := List.length_pos.mpr h
  have hlt : k % xs.length < xs.length := Nat.mod_lt _ hlen
  cases hg : xs.get? (k % xs.length) with
  | none =>
    rw [List.get?_eq_none] at hg
    omega
  | some m =>
    exact ⟨m, rfl, List.get?_mem hg⟩

/-- Claim C9, counterexample: on an empty pool choose_from_number fails
with IndexError (random.choice on an empty list), not with a
NoNumbersAvailable error — no such error exists anywhere in the source. -/
theorem C9_counterexample :
    choose_from_number [] "de" 0 = Except.error PyError.indexError ∧
    PyError.indexError ≠ PyError.noNumbersAvailable := by
  exact ⟨by decide, by decide⟩

/-- Claim C9 (amended): choose_from_number matches only on the user
language (a number whose country equals the language string) — it receives
no calling code and performs no region matching.  Whenever a
language-matching number exists it returns one of them; when none exists
and the pool is nonempty it returns some number of the whole pool (the
draw itself is a uniform random.choice, modelled by the oracle index); and
it fails — with IndexError, not a NoNumbersAvailable error — exactly when
the pool is empty. -/
theorem C9_amended_choose (pool : List Number) (lang : String) (k : Nat) :
    ((∃ n, n ∈ pool ∧ n.country = lang) →
      ∃ m, choose_from_number pool lang k = Except.ok m ∧ m ∈ pool ∧
        m.country = lang) ∧
    ((∀ n ∈ pool, ¬ n.country = lang) → pool ≠ [] →
      ∃ m, choose_from_number pool lang k = Except.ok m ∧ m ∈ pool) ∧
    (pool = [] → choose_from_number pool lang k = Except.error PyError.indexError) := by
  refine ⟨?_, ?_, ?_⟩
  · rintro ⟨n, hmem, hlang⟩
    unfold choose_from_number
    have hne : pool.filter (fun nr => nr.country == lang) ≠ [] := by
      intro hnil
      have : n ∈ pool.filter (fun nr => nr.country == lang) :=
        List.mem_filter.mpr ⟨hmem, by rw [hlang]; exact beq_self_eq_true lang⟩
      rw [hnil] at this
      cases this
    rw [if_neg (by
      intro hzero
      exact hne (List.length_eq_zero.mp hzero))]
    obtain ⟨m, hch, hm⟩ := choice_ok (pool.filter (fun nr => nr.country == lang)) k hne
    obtain ⟨hmp, hml⟩ := List.mem_filter.mp hm
    exact ⟨m, hch, hmp, beq_iff_eq.mp hml⟩
  · intro hnone hne
    unfold choose_from_number
    have hnil : pool.filter (fun nr => nr.country == lang) = [] := by
      rw [List.filter_eq_nil_iff]
      intro n hmem
      intro hco
      exact hnone n hmem (beq_iff_eq.mp hco)
    rw [if_pos (by rw [hnil]; rfl)]
    exact choice_ok pool k hne
  · intro h
    subst h
    rw [choose_from_number]
    rfl

/-- Witness for the amended C9 theorem: with a German-language pool entry
present, a German number is chosen. -/
theorem C9_amended_witness :
    ∃ m, choose_from_number [numDE, numSE] "de" 0 = Except.ok m ∧
      m ∈ [numDE, numSE] ∧ m.country = "de" :=
  (C9_amended_choose [numDE, numSE] "de" 0).1 ⟨numDE, by decide, rfl⟩

/-! ## Claim C10 -/

/-- Claim C10: if the Destination of an existing Call has no contact of
type phone, get_mep_number returns the empty string, and the bridge
handler still marks the Call connected, appends DESTINATION_CONNECTED
(and in particular no CALLING_DESTINATION_FAILED entry), and returns a
connect action whose connect number is the empty string, raising no
error (test_call not configured). -/
theorem C10_bridge_no_phone_contact (cfg : Cfg) (callid : String) (now : Nat)
    (st : Registry) (call : Call) (dest : Destination)
    (hc : get_call callid cfg.provider st.calls = .ok call)
    (hd : getDest st.dests call.destination_id = some dest)
    (hph : dest.contacts.filter (fun x => x.type == "phone") = [])
    (htc : cfg.test_call = none) :
    get_mep_number dest = "" ∧
    instant_connect cfg callid now st =
      ({ st with
          calls := connect_call call now st.calls
          log := st.log ++ [selEntry call SelEvent.DESTINATION_CONNECTED] },
       Except.ok (ElkAction.connect "")) := by
  have hnum : get_mep_number dest = "" := by
    unfold get_mep_number
    rw [hph]
  refine ⟨hnum, ?_⟩
  unfold instant_connect
  rw [hc]
  dsimp only
  rw [hd]
  dsimp only
  rw [htc]
  dsimp only
  rw [hnum]

/-- Witness for the C10 theorem: the concrete call cN toward the
destination with no phone contact is bridged to the empty number. -/
theorem C10_witness :
    get_mep_number destNoPhone = "" ∧
    instant_connect cfg0 "cN" 7 ⟨pool0, [callN], []⟩ =
      ({ (⟨pool0, [callN], []⟩ : Registry) with
          calls := connect_call callN 7 [callN]
          log := [selEntry callN SelEvent.DESTINATION_CONNECTED] },
       Except.ok (ElkAction.connect "")) :=
  C10_bridge_no_phone_contact cfg0 "cN" 7 ⟨pool0, [callN], []⟩ callN destNoPhone
    (by decide) (by decide) (by decide) rfl

end DearMEP
